import Mathlib

/-!
# fixed-source: LC3 container decoder and broadcast producer

A shallow embedding of `app/src/main.c`: the LC3 binary container handlers
(`lc3bin_read_header`, `lc3bin_read_data`), the producer `send_data` with its
stream callbacks, and the broadcast id derivation in `main`.

Pointers into `lc3_music` are byte offsets from the start of the array.
A `memcpy` whose source or destination range leaves its object is undefined
behaviour in C; the embedding makes that explicit as `Outcome.undefined`,
which is *not* a value returned by the C function.
-/

namespace FixedSource

/-! ## Memory model -/

/-- One octet of memory (`uint8_t`). -/
abbrev Byte := Fin 256

/-- Kinds of out-of-bounds access a `memcpy` of the program can perform. -/
inductive Fault where
  /-- The source range of the copy leaves the source array. -/
  | readPastArray
  /-- The destination range of the copy leaves the destination object. -/
  | writePastBuffer
  deriving DecidableEq, Repr

/-- Result of running a C function of the program: it returns normally (`ok`),
it performs an out-of-bounds access (`undefined`, C undefined behaviour), or it
is suspended inside `net_buf_alloc(..., K_FOREVER)` (`blocked`). -/
inductive Outcome (α : Type) where
  | ok (a : α)
  | undefined (f : Fault)
  | blocked
  deriving DecidableEq, Repr

/-- Sequencing of two program fragments. -/
def Outcome.bind {α β : Type} (x : Outcome α) (f : α → Outcome β) : Outcome β :=
  match x with
  | .ok a => f a
  | .undefined e => .undefined e
  | .blocked => .blocked

instance : Monad Outcome where
  pure := Outcome.ok
  bind := Outcome.bind

/-- The constant of `#define LC3_MIN_FRAME_BYTES 20`. -/
def LC3_MIN_FRAME_BYTES : Nat := 20

/-- The constant of `#define LC3_MAX_FRAME_BYTES 400`. -/
def LC3_MAX_FRAME_BYTES : Nat := 400

/-- The constant of `#define CHANNEL_COUNT 1`. -/
def CHANNEL_COUNT : Nat := 1

/-- The size of `uint8_t read_buffer[LC3_MAX_FRAME_BYTES * CHANNEL_COUNT]`. -/
def read_buffer_size : Nat := LC3_MAX_FRAME_BYTES * CHANNEL_COUNT

/-- Source side of `memcpy(dst, arr + off, n)`: the `n` bytes of `arr` from
offset `off`, or a fault when the range `[off, off + n)` leaves the array. -/
def memcpy_src (arr : List Byte) (off n : Nat) : Outcome (List Byte) :=
  if off + n ≤ arr.length then .ok ((arr.drop off).take n)
  else .undefined .readPastArray

/-- Destination side of `memcpy(buffer, src, n)` with `n = src.length`: the
first `n` bytes of `buffer` are overwritten and the rest kept, or a fault when
`n` exceeds the size of the destination object. -/
def memcpy_dst (buffer src : List Byte) : Outcome (List Byte) :=
  if src.length ≤ buffer.length then .ok (src ++ buffer.drop src.length)
  else .undefined .writePastBuffer

/-- Value of a `uint16_t` object whose two bytes are the first two of `b`
(little-endian target). -/
def le16 (b : List Byte) : Nat :=
  (b.getD 0 0).val + 256 * (b.getD 1 0).val

/-- Conversion of a 32-bit pattern to `int` (two's complement). -/
def toInt32 (n : Nat) : Int :=
  if n % 4294967296 < 2147483648 then (n % 4294967296 : Nat)
  else ((n % 4294967296 : Nat) : Int) - 4294967296

/-! ## LC3 binary format handler -/

/-- The type `struct lc3bin_header`: nine `uint16_t` fields, 18 bytes. -/
structure lc3bin_header where
  file_id : Nat
  header_size : Nat
  srate_100hz : Nat
  bitrate_100bps : Nat
  channels : Nat
  frame_10us : Nat
  rfu : Nat
  nsamples_low : Nat
  nsamples_high : Nat
  deriving DecidableEq, Repr

/-- The value of `sizeof(struct lc3bin_header)`. -/
def sizeof_hdr : Nat := 18

/-- Object representation of `struct lc3bin_header`: the struct as filled by
`memcpy(&hdr, bytes, sizeof(hdr))`. -/
def lc3bin_header.ofBytes (b : List Byte) : lc3bin_header :=
  { file_id := le16 (b.drop 0)
    header_size := le16 (b.drop 2)
    srate_100hz := le16 (b.drop 4)
    bitrate_100bps := le16 (b.drop 6)
    channels := le16 (b.drop 8)
    frame_10us := le16 (b.drop 10)
    rfu := le16 (b.drop 12)
    nsamples_low := le16 (b.drop 14)
    nsamples_high := le16 (b.drop 16) }

/-- Everything `lc3bin_read_header` leaves behind: the advanced `*data`, the
four `int` out-parameters and the return value. -/
structure HeaderResult where
  data : Nat
  frame_us : Int
  srate_hz : Int
  nchannels : Int
  nsamples : Int
  ret : Int
  deriving DecidableEq, Repr

/-- The function `int lc3bin_read_header(uint8_t **data, int *frame_us, int *srate_hz,
int *nchannels, int *nsamples)`, with `*data = lc3_music + data`. -/
def lc3bin_read_header (lc3_music : List Byte) (data : Nat) : Outcome HeaderResult := do
  let raw ← memcpy_src lc3_music data sizeof_hdr
  let hdr := lc3bin_header.ofBytes raw
  pure
    { nchannels := (hdr.channels : Int)
      frame_us := (hdr.frame_10us : Int) * 10
      srate_hz := (hdr.srate_100hz : Int) * 100
      nsamples := toInt32 (hdr.nsamples_low ||| (hdr.nsamples_high <<< 16))
      data := data + sizeof_hdr
      ret := (sizeof_hdr : Int) }

/-- Modelled from the spec: the Zephyr macro `PART_OF_ARRAY(lc3_music, ptr)`,
whose definition is not part of the repository ("if the new cursor position is
outside the blob's bounds"). With `ptr = lc3_music + data` and `data` a
natural number the lower bound always holds, so the test is `data < ARRAY_SIZE`. -/
def PART_OF_ARRAY (lc3_music : List Byte) (data : Nat) : Bool :=
  decide (data < lc3_music.length)

/-- Everything `lc3bin_read_data` leaves behind: the advanced (or rewound)
`*data`, the contents of `buffer`, the return value, and whether the
"End of LC3 array reached => looping." line was printed. -/
structure ReadResult where
  data : Nat
  buffer : List Byte
  ret : Int
  looped : Bool
  deriving DecidableEq, Repr

/-- The function `int lc3bin_read_data(uint8_t **data, int nchannels, void *buffer)`, with
`*data = lc3_music + data`; `start_data_ptr` is the global of that name. -/
def lc3bin_read_data (lc3_music : List Byte) (start_data_ptr : Nat) (data : Nat)
    (nchannels : Int) (buffer : List Byte) : Outcome ReadResult := do
  let _ := nchannels
  let raw ← memcpy_src lc3_music data 2
  let nbytes := le16 raw
  let data := data + 2
  let src ← memcpy_src lc3_music data nbytes
  let buffer ← memcpy_dst buffer src
  let data := data + nbytes
  if PART_OF_ARRAY lc3_music data = false then
    pure { data := start_data_ptr, buffer := buffer, ret := (nbytes : Int), looped := true }
  else
    pure { data := data, buffer := buffer, ret := (nbytes : Int), looped := false }

/-! ## Container format -/

/-- Length field of a frame as stored in the container: two bytes, low byte first. -/
def frame_len_bytes (n : Nat) : List Byte :=
  [⟨n % 256, Nat.mod_lt _ (by decide)⟩, ⟨n / 256 % 256, Nat.mod_lt _ (by decide)⟩]

/-- One frame as stored in the container: length field, then the payload. -/
def encode_frame (p : List Byte) : List Byte :=
  frame_len_bytes p.length ++ p

/-- The frames of a container, one after the other. -/
def encode_frames : List (List Byte) → List Byte
  | [] => []
  | p :: fs => encode_frame p ++ encode_frames fs

/-- A container: header bytes, then the frames, and nothing after the last frame. -/
def container (hdr : List Byte) (frames : List (List Byte)) : List Byte :=
  hdr ++ encode_frames frames

/-- A valid container: an 18-byte header, at least one frame, every frame
between `LC3_MIN_FRAME_BYTES` and `LC3_MAX_FRAME_BYTES` bytes long. -/
structure ValidContainer (hdr : List Byte) (frames : List (List Byte)) : Prop where
  hdr_len : hdr.length = sizeof_hdr
  nonempty : frames ≠ []
  sizes : ∀ p ∈ frames, LC3_MIN_FRAME_BYTES ≤ p.length ∧ p.length ≤ LC3_MAX_FRAME_BYTES

/-- Offset in the container of the length field of frame `j` (counted from 0). -/
def frame_pos (frames : List (List Byte)) (j : Nat) : Nat :=
  sizeof_hdr + (encode_frames (frames.take j)).length

/-- State of `data_ptr` and `read_buffer` after `k` successive calls
`lc3bin_read_data(&data_ptr, 1, read_buffer)`. -/
def after_reads (lc3_music : List Byte) (start_data_ptr : Nat) :
    Nat → Nat → List Byte → Outcome (Nat × List Byte)
  | 0, data, buffer => .ok (data, buffer)
  | k + 1, data, buffer => do
    let st ← after_reads lc3_music start_data_ptr k data buffer
    let r ← lc3bin_read_data lc3_music start_data_ptr st.1 1 st.2
    pure (r.data, r.buffer)

/-! ## Producer state -/

/-- Build-time configuration that the source takes from Kconfig, from Zephyr
headers and from the included `.lc3.inc` file. -/
structure Config where
  /-- Contents of `static const uint8_t lc3_music[]`. -/
  lc3_music : List Byte
  /-- Value of `preset_active.qos.sdu`. -/
  sdu : Nat
  /-- Value of `CONFIG_BT_BAP_BROADCAST_SRC_STREAM_COUNT`, the size of `streams[]`. -/
  stream_count : Nat
  /-- Value of `BT_ISO_CHAN_SEND_RESERVE`. -/
  send_reserve : Nat
  deriving DecidableEq, Repr

/-- The constant of `#define BROADCAST_ENQUEUE_COUNT 3U`. -/
def BROADCAST_ENQUEUE_COUNT : Nat := 3

/-- The constant of
`#define TOTAL_BUF_NEEDED (BROADCAST_ENQUEUE_COUNT * CONFIG_BT_BAP_BROADCAST_SRC_STREAM_COUNT)`,
the number of buffers of `tx_pool`. -/
def TOTAL_BUF_NEEDED (cfg : Config) : Nat :=
  BROADCAST_ENQUEUE_COUNT * cfg.stream_count

/-- The type `struct broadcast_source_stream` without the transport's own `stream` member:
`uint16_t seq_num` and `size_t sent_cnt`. -/
structure broadcast_source_stream where
  seq_num : Nat
  sent_cnt : Nat
  deriving DecidableEq, Repr, Inhabited

/-- The mutable globals of `main.c`. -/
structure State where
  /-- The global `data_ptr`, as an offset into `lc3_music`. -/
  data_ptr : Nat
  /-- The global `start_data_ptr`, as an offset into `lc3_music`. -/
  start_data_ptr : Nat
  /-- Contents of `read_buffer`. -/
  read_buffer : List Byte
  /-- The array `streams[]`. -/
  streams : List broadcast_source_stream
  /-- The flag `stopping`. -/
  stopping : Bool
  /-- Number of buffers of `tx_pool` allocated and not yet unreferenced. -/
  tx_pool_used : Nat
  /-- Count of the semaphore `sem_started`. -/
  sem_started : Nat
  /-- Count of the semaphore `sem_stopped`. -/
  sem_stopped : Nat
  deriving DecidableEq, Repr

/-- A `struct net_buf` as far as the program uses it: the reserved headroom and
the payload bytes added behind it. -/
structure net_buf where
  headroom : Nat
  data : List Byte
  deriving DecidableEq, Repr

/-- Lines the producer prints. -/
inductive Printk where
  /-- The line "End of LC3 array reached => looping." -/
  | looping
  /-- The line "Could not allocate buffer when sending on %p". -/
  | could_not_allocate (stream : Nat)
  /-- The line "ERROR READING LC3 DATA!" -/
  | error_reading
  /-- The line "Unable to broadcast data on %p: %d". -/
  | unable_to_broadcast (stream : Nat) (ret : Int)
  /-- The line "Stream %p: Sent %u total ISO packets". -/
  | sent_total (stream : Nat) (sent_cnt : Nat)
  deriving DecidableEq, Repr

/-- What an invocation does to the outside world, in order. -/
inductive Event where
  /-- A call `bt_bap_stream_send(stream, buf, seq_num)` together with the value
  the transport returned for it. -/
  | stream_send (stream : Nat) (buf : net_buf) (seq_num : Nat) (ret : Int)
  /-- A line printed with `printk`. -/
  | printk (line : Printk)
  deriving DecidableEq, Repr

/-- Modelled from the spec: `net_buf_alloc(&tx_pool, K_FOREVER)`, the acquire
of the Buffer Pool, whose code is Zephyr's and not in the repository ("a
blocking call until a buffer is free; there is no timeout"). With a free buffer
the call returns it and the pool has one more buffer in use; with none the
caller is suspended. -/
def net_buf_alloc (capacity used : Nat) : Outcome (Option net_buf × Nat) :=
  if used < capacity then .ok (some { headroom := 0, data := [] }, used + 1)
  else .blocked

/-- Modelled from the spec: `net_buf_unref(buf)` on a buffer of `tx_pool`, the
release of the Buffer Pool ("returns the buffer to the free set"). -/
def net_buf_unref (used : Nat) : Nat :=
  used - 1

/-- Modelled from the spec: `net_buf_reserve(buf, reserve)`, which sets the
headroom in front of the payload of an empty buffer ("a reserved prefix for
transport headroom"). -/
def net_buf_reserve (buf : net_buf) (reserve : Nat) : net_buf :=
  { buf with headroom := reserve }

/-- Modelled from the spec: `net_buf_add_mem(buf, mem, len)`, which appends the
first `len` bytes of the array `mem` to the payload of the buffer. The tailroom
of the buffer, `BT_ISO_SDU_BUF_SIZE(CONFIG_BT_ISO_TX_MTU)`, is configuration
that is not in the repository and is taken to be large enough. -/
def net_buf_add_mem (buf : net_buf) (mem : List Byte) (len : Nat) : Outcome net_buf := do
  let src ← memcpy_src mem 0 len
  pure { buf with data := buf.data ++ src }

/-- Modelled from the spec: `k_sem_give` on a semaphore with the given limit. -/
def k_sem_give (limit count : Nat) : Nat :=
  if count < limit then count + 1 else count

/-- The function `static void send_data(struct broadcast_source_stream *source_stream)` with
`source_stream = &streams[i]`; `send_ret` is the value `bt_bap_stream_send`
returns if the invocation gets to call it. -/
def send_data (cfg : Config) (s : State) (i : Nat) (send_ret : Int) :
    Outcome (State × List Event) :=
  if s.stopping then
    pure (s, [])
  else do
    let (buf, used) ← net_buf_alloc (TOTAL_BUF_NEEDED cfg) s.tx_pool_used
    let s := { s with tx_pool_used := used }
    match buf with
    | none => pure (s, [Event.printk (.could_not_allocate i)])
    | some buf =>
      let r ← lc3bin_read_data cfg.lc3_music s.start_data_ptr s.data_ptr 1 s.read_buffer
      let s := { s with data_ptr := r.data, read_buffer := r.buffer }
      let ev0 := if r.looped then [Event.printk .looping] else []
      if r.ret < 0 then
        pure (s, ev0 ++ [Event.printk .error_reading])
      else do
        let buf := net_buf_reserve buf cfg.send_reserve
        let buf ← net_buf_add_mem buf s.read_buffer cfg.sdu
        let src := s.streams.getD i default
        let seq_num := src.seq_num
        let src := { src with seq_num := (src.seq_num + 1) % 65536 }
        let s := { s with streams := s.streams.set i src }
        let ev1 := ev0 ++ [Event.stream_send i buf seq_num send_ret]
        if send_ret < 0 then
          pure ({ s with tx_pool_used := net_buf_unref s.tx_pool_used },
            ev1 ++ [Event.printk (.unable_to_broadcast i send_ret)])
        else
          let src := { src with sent_cnt := (src.sent_cnt + 1) % 4294967296 }
          let s := { s with streams := s.streams.set i src }
          if src.sent_cnt % 1000 = 0 then
            pure (s, ev1 ++ [Event.printk (.sent_total i src.sent_cnt)])
          else
            pure (s, ev1)

/-- The callback `static void stream_started_cb(struct bt_bap_stream *stream)` for the
stream of `streams[i]`. -/
def stream_started_cb (cfg : Config) (s : State) (i : Nat) : State :=
  let src := s.streams.getD i default
  let src := { src with seq_num := 0 }
  let src := { src with sent_cnt := 0 }
  { s with streams := s.streams.set i src
           sem_started := k_sem_give cfg.stream_count s.sem_started }

/-- The callback `static void stream_stopped_cb(struct bt_bap_stream *stream, uint8_t reason)`. -/
def stream_stopped_cb (cfg : Config) (s : State) (i : Nat) (reason : Nat) : State :=
  let _ := i
  let _ := reason
  { s with sem_stopped := k_sem_give cfg.stream_count s.sem_stopped }

/-- The callback `static void stream_sent_cb(struct bt_bap_stream *stream)` for the stream
of `streams[i]`. -/
def stream_sent_cb (cfg : Config) (s : State) (i : Nat) (send_ret : Int) :
    Outcome (State × List Event) :=
  send_data cfg s i send_ret

/-- Things that happen to the producer: the three callbacks of `stream_ops`
(the priming calls of `main` are calls of `stream_sent_cb` too), and the
transport giving a buffer it is done with back to `tx_pool`. -/
inductive Step where
  | sent (i : Nat) (send_ret : Int)
  | started (i : Nat)
  | stopped (i : Nat) (reason : Nat)
  | release
  deriving DecidableEq, Repr

/-- Effect of one step. -/
def step (cfg : Config) (s : State) : Step → Outcome (State × List Event)
  | .sent i send_ret => stream_sent_cb cfg s i send_ret
  | .started i => pure (stream_started_cb cfg s i, [])
  | .stopped i reason => pure (stream_stopped_cb cfg s i reason, [])
  | .release => pure ({ s with tx_pool_used := net_buf_unref s.tx_pool_used }, [])

/-- Effect of a sequence of steps, each one running to its end before the next. -/
def run (cfg : Config) : State → List Step → Outcome (State × List Event)
  | s, [] => pure (s, [])
  | s, e :: es => do
    let (s1, ev1) ← step cfg s e
    let (s2, ev2) ← run cfg s1 es
    pure (s2, ev1 ++ ev2)

/-- The start of `main` up to `start_data_ptr = data_ptr`: the header is read
from the start of `lc3_music`; the other globals have their static initial
values. -/
def main_init (cfg : Config) : Outcome State := do
  let hr ← lc3bin_read_header cfg.lc3_music 0
  pure
    { data_ptr := hr.data
      start_data_ptr := hr.data
      read_buffer := List.replicate read_buffer_size 0
      streams := List.replicate cfg.stream_count { seq_num := 0, sent_cnt := 0 }
      stopping := false
      tx_pool_used := 0
      sem_started := 0
      sem_stopped := 0 }

/-- The steps of the two nested loops under "Initialize sending" at the end of
`main`; `send_ret i j` is what the transport returns to call `j` for stream `i`. -/
def priming_steps (cfg : Config) (send_ret : Nat → Nat → Int) : List Step :=
  (List.range cfg.stream_count).flatMap fun i =>
    (List.range BROADCAST_ENQUEUE_COUNT).map fun j => Step.sent i (send_ret i j)

/-- States the producer can be in: the state `main` sets up, and every state a
step leads to from one of them. -/
inductive Reachable (cfg : Config) : State → Prop where
  | init (s : State) (h : main_init cfg = .ok s) : Reachable cfg s
  | step (s s1 : State) (e : Step) (evs : List Event) (h : Reachable cfg s)
      (hs : step cfg s e = .ok (s1, evs)) : Reachable cfg s1

/-- The calls of `bt_bap_stream_send` for stream `i` among the events, in
order: sequence number passed and value returned. -/
def submissions (i : Nat) : List Event → List (Nat × Int)
  | [] => []
  | Event.stream_send j _ seq_num ret :: evs =>
    if j = i then (seq_num, ret) :: submissions i evs else submissions i evs
  | Event.printk _ :: evs => submissions i evs

/-- The sequence numbers of the successful submissions for stream `i`, in order. -/
def successful_seq_nums (i : Nat) (evs : List Event) : List Nat :=
  ((submissions i evs).filter fun p => decide (0 ≤ p.2)).map Prod.fst

/-! ## Broadcast id -/

/-- The fallback value `0xDEADBF`. -/
def FALLBACK_BROADCAST_ID : Nat := 0xDEADBF

/-- The lines of `main` that set `broadcast_id`. `ret` and `hwid0..2` are what
`hwinfo_get_device_id(hwid, sizeof(hwid))` returned and left in `hwid`;
`uninit` is the indeterminate content of the automatic variable
`uint32_t broadcast_id`, which is declared without an initialiser. The
comparison `ret == sizeof(hwid)` converts `ret` to `size_t`; `memcpy` of three
bytes replaces the three low-order bytes (little-endian target) and leaves the
fourth. -/
def main_broadcast_id (uninit : Nat) (ret : Int) (hwid0 hwid1 hwid2 : Byte) : Nat :=
  if ret % 4294967296 = 3 then
    hwid0.val + 256 * hwid1.val + 65536 * hwid2.val + 16777216 * (uninit / 16777216 % 256)
  else
    FALLBACK_BROADCAST_ID

/-- Result of call number `n + 1` in a row of successive calls
`lc3bin_read_data(&data_ptr, 1, read_buffer)`. -/
def read_call (lc3_music : List Byte) (start_data_ptr data : Nat) (buffer : List Byte)
    (n : Nat) : Outcome ReadResult := do
  let st ← after_reads lc3_music start_data_ptr n data buffer
  lc3bin_read_data lc3_music start_data_ptr st.1 1 st.2

/-! ## A sample container -/

/-- A header for 10000 us frames at 16000 Hz, one channel, 32000 samples. -/
def sample_hdr : List Byte :=
  [0x1c, 0xcc, 0x12, 0x00, 0xa0, 0x00, 0x40, 0x01, 0x01, 0x00,
   0xe8, 0x03, 0x00, 0x00, 0x00, 0x7d, 0x00, 0x00]

/-- The sample header with the sample count fields changed to
`nsamples_low = 0x0000` and `nsamples_high = 0x8000` (bytes 16, 17 = 00 80). -/
def wide_hdr : List Byte :=
  [0x1c, 0xcc, 0x12, 0x00, 0xa0, 0x00, 0x40, 0x01, 0x01, 0x00,
   0xe8, 0x03, 0x00, 0x00, 0x00, 0x00, 0x00, 0x80]

/-- Two frames, of 40 and of 45 bytes. -/
def sample_frames : List (List Byte) :=
  [List.replicate 40 0x11, List.replicate 45 0x22]

/-- The sample container. -/
def sample_music : List Byte := container sample_hdr sample_frames

/-- A zero-filled `read_buffer`. -/
def zero_buffer : List Byte := List.replicate read_buffer_size 0

/-- A container whose only frame announces 500 bytes, more than `read_buffer`
holds, and has them. -/
def oversized_music : List Byte :=
  sample_hdr ++ [0xf4, 0x01] ++ List.replicate 500 0x33

/-- A container whose only frame announces 40 bytes but has only 10. -/
def short_music : List Byte :=
  sample_hdr ++ [0x28, 0x00] ++ List.replicate 10 0x33

/-- A configuration with the sample container: one stream, 40-byte SDUs. -/
def sample_cfg : Config :=
  { lc3_music := sample_music, sdu := 40, stream_count := 1, send_reserve := 8 }

/-- The state `main` sets up for the sample configuration. -/
def sample_state : State :=
  { data_ptr := 18
    start_data_ptr := 18
    read_buffer := zero_buffer
    streams := [{ seq_num := 0, sent_cnt := 0 }]
    stopping := false
    tx_pool_used := 0
    sem_started := 0
    sem_stopped := 0 }

/-- The decoder part of the state is in step with a container of these frames:
`start_data_ptr` is behind the header, `data_ptr` is on the length field of a
frame, and `read_buffer` has its size. -/
structure InStep (frames : List (List Byte)) (s : State) : Prop where
  start : s.start_data_ptr = sizeof_hdr
  cursor : ∃ j, j < frames.length ∧ s.data_ptr = frame_pos frames j
  buffer : s.read_buffer.length = read_buffer_size

/-! ## Lemmas -/


@[simp] theorem Outcome.ok_bind {α β : Type} (a : α) (f : α → Outcome β) :
    (Outcome.ok a >>= f) = f a := rfl

@[simp] theorem Outcome.undefined_bind {α β : Type} (e : Fault) (f : α → Outcome β) :
    ((Outcome.undefined e : Outcome α) >>= f) = Outcome.undefined e := rfl

@[simp] theorem Outcome.blocked_bind {α β : Type} (f : α → Outcome β) :
    ((Outcome.blocked : Outcome α) >>= f) = Outcome.blocked := rfl

@[simp] theorem Outcome.pure_eq {α : Type} (a : α) : (pure a : Outcome α) = Outcome.ok a := rfl

theorem memcpy_src_mid (pre mid post : List Byte) :
    memcpy_src (pre ++ mid ++ post) pre.length mid.length = .ok mid := by
  simp [memcpy_src, List.append_assoc]

theorem le16_frame_len_bytes (n : Nat) (h : n < 65536) (rest : List Byte) :
    le16 (frame_len_bytes n ++ rest) = n := by
  simp [le16, frame_len_bytes]
  omega

theorem encode_frames_append (xs ys : List (List Byte)) :
    encode_frames (xs ++ ys) = encode_frames xs ++ encode_frames ys := by
  induction xs with
  | nil => rfl
  | cons p xs ih => simp [encode_frames, ih, List.append_assoc]

theorem encode_frames_eq_nil (fs : List (List Byte)) : encode_frames fs = [] ↔ fs = [] := by
  cases fs with
  | nil => simp [encode_frames]
  | cons p fs => simp [encode_frames, encode_frame, frame_len_bytes]

/-- Reading one frame that sits between `pre` and `post`. -/
theorem lc3bin_read_data_at (pre p post buffer : List Byte) (start : Nat) (nch : Int)
    (hp : p.length ≤ buffer.length) (h16 : p.length < 65536) :
    lc3bin_read_data (pre ++ encode_frame p ++ post) start pre.length nch buffer =
      .ok { data := if post = [] then start else pre.length + 2 + p.length
            buffer := p ++ buffer.drop p.length
            ret := (p.length : Int)
            looped := decide (post = []) } := by
  have e1 : pre ++ encode_frame p ++ post = pre ++ frame_len_bytes p.length ++ (p ++ post) := by
    simp [encode_frame, List.append_assoc]
  have e2 : pre ++ encode_frame p ++ post = (pre ++ frame_len_bytes p.length) ++ p ++ post := by
    simp [encode_frame, List.append_assoc]
  have l2 : (frame_len_bytes p.length).length = 2 := rfl
  have r1 : memcpy_src (pre ++ encode_frame p ++ post) pre.length 2 = .ok (frame_len_bytes p.length) := by
    rw [e1, ← l2]; exact memcpy_src_mid _ _ _
  have n1 : le16 (frame_len_bytes p.length) = p.length := by
    simpa using le16_frame_len_bytes p.length h16 []
  have r2 : memcpy_src (pre ++ encode_frame p ++ post) (pre.length + 2) p.length = .ok p := by
    have := memcpy_src_mid (pre ++ frame_len_bytes p.length) p post
    rw [List.length_append, l2] at this
    rw [e2]; exact this
  have r3 : memcpy_dst buffer p = .ok (p ++ buffer.drop p.length) := by
    simp [memcpy_dst, hp]
  unfold lc3bin_read_data
  simp only [r1, Outcome.ok_bind, n1, r2, r3]
  by_cases hpost : post = []
  · subst hpost
    simp [PART_OF_ARRAY, encode_frame, l2]
    omega
  · have : 0 < post.length := List.length_pos.mpr hpost
    simp [PART_OF_ARRAY, encode_frame, l2, hpost]
    omega

theorem encode_frame_length (p : List Byte) : (encode_frame p).length = 2 + p.length := by
  simp [encode_frame, frame_len_bytes]; omega

theorem frame_pos_zero (frames : List (List Byte)) : frame_pos frames 0 = sizeof_hdr := by
  simp [frame_pos, encode_frames]

theorem frame_pos_succ (frames : List (List Byte)) (j : Nat) (hj : j < frames.length) :
    frame_pos frames (j + 1) = frame_pos frames j + 2 + frames[j].length := by
  unfold frame_pos
  rw [List.take_succ, encode_frames_append]
  simp [List.getElem?_eq_getElem hj, encode_frames, encode_frame_length]
  omega

/-- Reading frame `j` of a valid container: the call returns its length, leaves
its payload at the start of the buffer and moves the cursor to the next frame,
or back to the first frame after the last one. -/
theorem lc3bin_read_data_frame (hdr : List Byte) (frames : List (List Byte))
    (hv : ValidContainer hdr frames) (j : Nat) (hj : j < frames.length) (nch : Int)
    (buffer : List Byte) (hb : buffer.length = read_buffer_size) :
    lc3bin_read_data (container hdr frames) sizeof_hdr (frame_pos frames j) nch buffer =
      .ok { data := frame_pos frames ((j + 1) % frames.length)
            buffer := frames[j] ++ buffer.drop frames[j].length
            ret := (frames[j].length : Int)
            looped := decide (j + 1 = frames.length) } := by
  have hsz := hv.sizes frames[j] (List.getElem_mem hj)
  simp only [LC3_MAX_FRAME_BYTES] at hsz
  have hsplit : frames = frames.take j ++ frames[j] :: frames.drop (j + 1) := by
    rw [← List.drop_eq_getElem_cons hj, List.take_append_drop]
  have hc : container hdr frames =
      (hdr ++ encode_frames (frames.take j)) ++ encode_frame frames[j]
        ++ encode_frames (frames.drop (j + 1)) := by
    conv_lhs => rw [container, hsplit, encode_frames_append]
    simp [encode_frames, List.append_assoc]
  have hpre : (hdr ++ encode_frames (frames.take j)).length = frame_pos frames j := by
    simp [frame_pos, hv.hdr_len]
  have hbuf : frames[j].length ≤ buffer.length := by
    rw [hb]; simp [read_buffer_size, LC3_MAX_FRAME_BYTES, CHANNEL_COUNT]; omega
  rw [hc, ← hpre, lc3bin_read_data_at _ _ _ _ _ _ hbuf (by omega), hpre]
  have hnil : encode_frames (frames.drop (j + 1)) = [] ↔ j + 1 = frames.length := by
    rw [encode_frames_eq_nil, List.drop_eq_nil_iff]; omega
  by_cases hlast : j + 1 = frames.length
  · have h0 : (j + 1) % frames.length = 0 := by rw [hlast]; exact Nat.mod_self _
    simp [hnil.mpr hlast, hlast, h0, frame_pos_zero, encode_frames]
  · have hlt : j + 1 < frames.length := by omega
    have hne : ¬ encode_frames (frames.drop (j + 1)) = [] := fun h => hlast (hnil.mp h)
    simp [hne, hlast, Nat.mod_eq_of_lt hlt, frame_pos_succ frames j hj]

/-- After `k` reads of a valid container the cursor is at frame `k mod N` and
the buffer still has its full size. -/
theorem after_reads_valid (hdr : List Byte) (frames : List (List Byte))
    (hv : ValidContainer hdr frames) (buffer : List Byte)
    (hb : buffer.length = read_buffer_size) (k : Nat) :
    ∃ b, after_reads (container hdr frames) sizeof_hdr k sizeof_hdr buffer =
        .ok (frame_pos frames (k % frames.length), b) ∧ b.length = read_buffer_size := by
  have hN : 0 < frames.length := List.length_pos.mpr hv.nonempty
  induction k with
  | zero => exact ⟨buffer, by simp [after_reads, frame_pos_zero], hb⟩
  | succ k ih =>
    obtain ⟨b, hk, hbl⟩ := ih
    have hj : k % frames.length < frames.length := Nat.mod_lt _ hN
    have hsz := hv.sizes _ (List.getElem_mem hj)
    refine ⟨frames[k % frames.length] ++ b.drop frames[k % frames.length].length, ?_, ?_⟩
    · simp only [after_reads, hk, Outcome.ok_bind,
        lc3bin_read_data_frame hdr frames hv _ hj 1 b hbl, Outcome.pure_eq]
      simp [Nat.add_mod]
    · simp only [List.length_append, List.length_drop, hbl]
      simp only [LC3_MAX_FRAME_BYTES, read_buffer_size, CHANNEL_COUNT] at *
      omega

theorem sample_valid : ValidContainer sample_hdr sample_frames where
  hdr_len := rfl
  nonempty := by simp [sample_frames]
  sizes := by
    intro p hp
    simp only [sample_frames, List.mem_cons, List.mem_singleton, List.not_mem_nil, or_false] at hp
    rcases hp with h | h <;> subst h <;> simp [LC3_MIN_FRAME_BYTES, LC3_MAX_FRAME_BYTES]

theorem zero_buffer_length : zero_buffer.length = read_buffer_size := by
  simp [zero_buffer]

theorem lc3bin_read_header_ok (blob : List Byte) (h : sizeof_hdr ≤ blob.length) :
    lc3bin_read_header blob 0 = .ok
      { data := sizeof_hdr
        frame_us := ((lc3bin_header.ofBytes (blob.take sizeof_hdr)).frame_10us : Int) * 10
        srate_hz := ((lc3bin_header.ofBytes (blob.take sizeof_hdr)).srate_100hz : Int) * 100
        nchannels := ((lc3bin_header.ofBytes (blob.take sizeof_hdr)).channels : Int)
        nsamples := toInt32 ((lc3bin_header.ofBytes (blob.take sizeof_hdr)).nsamples_low |||
          ((lc3bin_header.ofBytes (blob.take sizeof_hdr)).nsamples_high <<< 16))
        ret := (sizeof_hdr : Int) } := by
  simp only [lc3bin_read_header, memcpy_src, Nat.zero_add, if_pos h, List.drop_zero,
    Outcome.ok_bind, Outcome.pure_eq]

theorem lc3bin_read_header_container (hdr : List Byte) (frames : List (List Byte))
    (hv : ValidContainer hdr frames) :
    ∃ hr, lc3bin_read_header (container hdr frames) 0 = .ok hr ∧ hr.data = sizeof_hdr := by
  have h : sizeof_hdr ≤ (container hdr frames).length := by
    simp [container, hv.hdr_len]
  exact ⟨_, lc3bin_read_header_ok _ h, rfl⟩

theorem read_call_valid (hdr : List Byte) (frames : List (List Byte))
    (hv : ValidContainer hdr frames) (buffer : List Byte)
    (hb : buffer.length = read_buffer_size) (k : Nat) :
    ∃ r p, read_call (container hdr frames) sizeof_hdr sizeof_hdr buffer k = .ok r ∧
      frames[k % frames.length]? = some p ∧ r.ret = (p.length : Int) ∧
      r.buffer.take p.length = p ∧
      r.data = frame_pos frames ((k + 1) % frames.length) ∧
      r.looped = decide (k % frames.length + 1 = frames.length) := by
  have hN : 0 < frames.length := List.length_pos.mpr hv.nonempty
  have hj : k % frames.length < frames.length := Nat.mod_lt _ hN
  obtain ⟨b, hk, hbl⟩ := after_reads_valid hdr frames hv buffer hb k
  have hres := lc3bin_read_data_frame hdr frames hv _ hj 1 b hbl
  have hcall : read_call (container hdr frames) sizeof_hdr sizeof_hdr buffer k =
      lc3bin_read_data (container hdr frames) sizeof_hdr
        (frame_pos frames (k % frames.length)) 1 b := by
    simp only [read_call, hk, Outcome.ok_bind]
  rw [hres] at hcall
  refine ⟨_, _, hcall, List.getElem?_eq_getElem hj, rfl, ?_, ?_, rfl⟩
  · simp
  · simp only [Nat.mod_add_mod]

/-- C1: for a valid container (18-byte header, N >= 1 frames of 20 to 400
bytes, nothing after the last frame), `lc3bin_read_header` succeeds and, from
the cursor it leaves, call number `i + 1` of `lc3bin_read_data` (for `i < N`)
returns the length of frame `i` and leaves that frame's payload in the first
bytes of the output buffer. -/
theorem lc3bin_read_data_round_trip (hdr : List Byte) (frames : List (List Byte))
    (hv : ValidContainer hdr frames) (buffer : List Byte)
    (hb : buffer.length = read_buffer_size) (i : Nat) (hi : i < frames.length) :
    ∃ hr r, lc3bin_read_header (container hdr frames) 0 = .ok hr ∧
      read_call (container hdr frames) hr.data hr.data buffer i = .ok r ∧
      r.ret = (frames[i].length : Int) ∧
      r.buffer.take frames[i].length = frames[i] := by
  obtain ⟨hr, hh, hd⟩ := lc3bin_read_header_container hdr frames hv
  obtain ⟨r, p, hr1, hp, hret, htake, -, -⟩ := read_call_valid hdr frames hv buffer hb i
  rw [Nat.mod_eq_of_lt hi, List.getElem?_eq_getElem hi, Option.some.injEq] at hp
  subst hp
  exact ⟨hr, r, hh, by rw [hd]; exact hr1, hret, htake⟩

/-- Witness for C1 on the sample container: the second call returns the 45-byte frame. -/
theorem lc3bin_read_data_round_trip_witness :
    ValidContainer sample_hdr sample_frames ∧ zero_buffer.length = read_buffer_size ∧
    ∃ hr r, lc3bin_read_header sample_music 0 = .ok hr ∧
      read_call sample_music hr.data hr.data zero_buffer 1 = .ok r ∧
      r.ret = 45 ∧ r.buffer.take 45 = List.replicate 45 0x22 :=
  ⟨sample_valid, zero_buffer_length,
    lc3bin_read_data_round_trip sample_hdr sample_frames sample_valid zero_buffer
      zero_buffer_length 1 (by decide)⟩

/-- C2: for a valid container of N >= 1 frames, call number `k + 1` of
`lc3bin_read_data` after the header read returns frame `k mod N` (length and
bytes), for every `k`; the call that reads the last frame puts the cursor back
to `start_data_ptr`, 18 bytes into the blob, and prints the looping line; and
call number `N + 1` returns the same length and bytes as the first call. -/
theorem lc3bin_read_data_wraparound (hdr : List Byte) (frames : List (List Byte))
    (hv : ValidContainer hdr frames) (buffer : List Byte)
    (hb : buffer.length = read_buffer_size) (k : Nat) :
    ∃ hr r p, lc3bin_read_header (container hdr frames) 0 = .ok hr ∧
      hr.data = sizeof_hdr ∧
      read_call (container hdr frames) hr.data hr.data buffer k = .ok r ∧
      frames[k % frames.length]? = some p ∧
      r.ret = (p.length : Int) ∧ r.buffer.take p.length = p ∧
      (k % frames.length + 1 = frames.length → r.data = hr.data ∧ r.looped = true) ∧
      ∃ r0 rN p0, read_call (container hdr frames) hr.data hr.data buffer 0 = .ok r0 ∧
        read_call (container hdr frames) hr.data hr.data buffer frames.length = .ok rN ∧
        frames[0]? = some p0 ∧ rN.ret = r0.ret ∧ r0.ret = (p0.length : Int) ∧
        rN.buffer.take p0.length = r0.buffer.take p0.length := by
  have hN : 0 < frames.length := List.length_pos.mpr hv.nonempty
  obtain ⟨hr, hh, hd⟩ := lc3bin_read_header_container hdr frames hv
  obtain ⟨r, p, hr1, hp, hret, htake, hdata, hloop⟩ := read_call_valid hdr frames hv buffer hb k
  obtain ⟨r0, p0, h0, hp0, hret0, htake0, -, -⟩ := read_call_valid hdr frames hv buffer hb 0
  obtain ⟨rN, pN, hN1, hpN, hretN, htakeN, -, -⟩ :=
    read_call_valid hdr frames hv buffer hb frames.length
  rw [Nat.zero_mod] at hp0
  rw [Nat.mod_self, hp0, Option.some.injEq] at hpN
  subst hpN
  refine ⟨hr, r, p, hh, hd, by rw [hd]; exact hr1, hp, hret, htake, ?_,
    r0, rN, p0, by rw [hd]; exact h0, by rw [hd]; exact hN1, hp0, ?_, hret0, ?_⟩
  · intro hlast
    have hz : (k + 1) % frames.length = 0 := by
      rw [← Nat.mod_add_mod, hlast, Nat.mod_self]
    rw [hdata, hloop, hz, frame_pos_zero, hd]
    exact ⟨rfl, by simp [hlast]⟩
  · rw [hretN, hret0]
  · rw [htakeN, htake0]

/-- Witness for C2 on the sample container (frames of 40 and 45 bytes): the
third read wraps and returns the 40-byte frame again. -/
theorem lc3bin_read_data_wraparound_witness :
    ValidContainer sample_hdr sample_frames ∧ zero_buffer.length = read_buffer_size ∧
    ∃ r, read_call sample_music 18 18 zero_buffer 2 = .ok r ∧
      r.ret = 40 ∧ r.buffer.take 40 = List.replicate 40 0x11 := by
  refine ⟨sample_valid, zero_buffer_length, ?_⟩
  obtain ⟨hr, r, p, -, hd, hcall, hp, hret, htake, -⟩ :=
    lc3bin_read_data_wraparound sample_hdr sample_frames sample_valid zero_buffer
      zero_buffer_length 2
  have hp2 : p = List.replicate 40 0x11 := by
    have : sample_frames[2 % sample_frames.length]? = some (List.replicate 40 0x11) := by decide
    rw [this, Option.some.injEq] at hp
    exact hp.symm
  subst hp2
  rw [hd] at hcall
  exact ⟨r, hcall, by simpa using hret, by simpa using htake⟩

theorem le16_take_drop (blob : List Byte) (i : Nat) (hi : i + 2 ≤ sizeof_hdr) :
    le16 ((blob.take sizeof_hdr).drop i) =
      (blob.getD i 0).val + 256 * (blob.getD (i + 1) 0).val := by
  have h1 : i < sizeof_hdr := by omega
  have h2 : i + 1 < sizeof_hdr := by omega
  simp [le16, List.getElem?_take, h1, h2]

theorem le16_lt (b : List Byte) : le16 b < 65536 := by
  unfold le16
  have h0 := (b.getD 0 0).isLt
  have h1 := (b.getD 1 0).isLt
  omega

theorem lor_shift16 (lo hi : Nat) (h : lo < 65536) : lo ||| (hi <<< 16) = lo + 65536 * hi := by
  have h16 : lo < 2 ^ 16 := by simpa using h
  rw [Nat.lor_comm, Nat.shiftLeft_eq, Nat.mul_comm, ← Nat.mul_add_lt_is_or h16 hi]
  omega

theorem toInt32_emod (n : Nat) (h : n < 4294967296) : toInt32 n % 4294967296 = (n : Int) := by
  unfold toInt32
  split <;> omega

theorem toInt32_small (n : Nat) (h : n < 2147483648) : toInt32 n = (n : Int) := by
  unfold toInt32
  split <;> omega

theorem toInt32_large (n : Nat) (h1 : 2147483648 ≤ n) (h2 : n < 4294967296) :
    toInt32 n = (n : Int) - 4294967296 := by
  unfold toInt32
  split <;> omega

/-- C3 fails on the code: with `nsamples_low = 0` and `nsamples_high = 0x8000`
the 32-bit value with these halves is 2147483648, but `*nsamples` is an `int`
and `lc3bin_read_header` leaves -2147483648 in it. -/
theorem lc3bin_read_header_nsamples_counterexample :
    sizeof_hdr ≤ wide_hdr.length ∧
    ((((wide_hdr.getD 14 0).val + 256 * (wide_hdr.getD 15 0).val) +
      65536 * ((wide_hdr.getD 16 0).val + 256 * (wide_hdr.getD 17 0).val) : Nat) : Int)
        = 2147483648 ∧
    ∃ hr, lc3bin_read_header wide_hdr 0 = .ok hr ∧ hr.nsamples = -2147483648 ∧
      hr.nsamples ≠
        ((((wide_hdr.getD 14 0).val + 256 * (wide_hdr.getD 15 0).val) +
          65536 * ((wide_hdr.getD 16 0).val + 256 * (wide_hdr.getD 17 0).val) : Nat) : Int) := by
  have hrun : lc3bin_read_header wide_hdr 0 = .ok
      { data := 18, frame_us := 10000, srate_hz := 16000, nchannels := 1,
        nsamples := -2147483648, ret := 18 } := by decide!
  exact ⟨by decide, by decide, _, hrun, rfl, by decide⟩

/-- C3 as amended: on every blob of at least 18 bytes `lc3bin_read_header`
returns 18 and leaves the cursor 18 bytes past the start of the blob; with the
nine fields read as little-endian 16-bit values, `frame_us` is 10 times
`frame_10us` (bytes 10, 11), `srate_hz` is 100 times `srate_100hz` (bytes 4,
5), `nchannels` is `channels` (bytes 8, 9), and `nsamples` is the `int` with
the two's complement pattern of low half `nsamples_low` (bytes 14, 15) and
high half `nsamples_high` (bytes 16, 17): the value
`nsamples_low + 65536 * nsamples_high` when `nsamples_high < 0x8000`, and that
value minus 2^32 otherwise. -/
theorem lc3bin_read_header_fields (blob : List Byte) (h : sizeof_hdr ≤ blob.length) :
    ∃ hr, lc3bin_read_header blob 0 = .ok hr ∧
      hr.frame_us = 10 * (((blob.getD 10 0).val + 256 * (blob.getD 11 0).val : Nat) : Int) ∧
      hr.srate_hz = 100 * (((blob.getD 4 0).val + 256 * (blob.getD 5 0).val : Nat) : Int) ∧
      hr.nchannels = (((blob.getD 8 0).val + 256 * (blob.getD 9 0).val : Nat) : Int) ∧
      hr.nsamples =
        (if (blob.getD 16 0).val + 256 * (blob.getD 17 0).val < 32768 then
          ((((blob.getD 14 0).val + 256 * (blob.getD 15 0).val) +
            65536 * ((blob.getD 16 0).val + 256 * (blob.getD 17 0).val) : Nat) : Int)
        else
          ((((blob.getD 14 0).val + 256 * (blob.getD 15 0).val) +
            65536 * ((blob.getD 16 0).val + 256 * (blob.getD 17 0).val) : Nat) : Int)
            - 4294967296) ∧
      hr.nsamples % 4294967296 =
        ((((blob.getD 14 0).val + 256 * (blob.getD 15 0).val) +
          65536 * ((blob.getD 16 0).val + 256 * (blob.getD 17 0).val) : Nat) : Int) ∧
      hr.ret = 18 ∧ hr.data = 18 := by
  have hlo := le16_lt ((blob.take sizeof_hdr).drop 14)
  have hhi := le16_lt ((blob.take sizeof_hdr).drop 16)
  have e14 := le16_take_drop blob 14 (by decide)
  have e16 := le16_take_drop blob 16 (by decide)
  simp only [Nat.reduceAdd] at e14 e16
  refine ⟨_, lc3bin_read_header_ok blob h, ?_, ?_, ?_, ?_, ?_, rfl, rfl⟩
  · simp only [lc3bin_header.ofBytes, le16_take_drop blob 10 (by decide), Nat.reduceAdd]
    push_cast
    ring
  · simp only [lc3bin_header.ofBytes, le16_take_drop blob 4 (by decide), Nat.reduceAdd]
    push_cast
    ring
  · simp only [lc3bin_header.ofBytes, le16_take_drop blob 8 (by decide), Nat.reduceAdd]
  · simp only [lc3bin_header.ofBytes]
    rw [lor_shift16 _ _ hlo]
    split
    · rw [toInt32_small _ (by omega), e14, e16]
    · rw [toInt32_large _ (by omega) (by omega), e14, e16]
  · simp only [lc3bin_header.ofBytes]
    rw [lor_shift16 _ _ hlo, toInt32_emod _ (by omega), e14, e16]

/-- Witness for C3 as amended: the sample header (frame_10us = 1000,
srate_100hz = 160, channels = 1, nsamples = 32000) decodes to
(10000, 16000, 1, 32000). -/
theorem lc3bin_read_header_fields_witness :
    sizeof_hdr ≤ sample_music.length ∧
    ∃ hr, lc3bin_read_header sample_music 0 = .ok hr ∧
      hr.frame_us = 10000 ∧ hr.srate_hz = 16000 ∧ hr.nchannels = 1 ∧ hr.nsamples = 32000 ∧
      hr.ret = 18 ∧ hr.data = 18 := by
  have hlen : sizeof_hdr ≤ sample_music.length := by decide
  obtain ⟨hr, hh, h1, h2, h3, h4, -, h6, h7⟩ := lc3bin_read_header_fields sample_music hlen
  refine ⟨hlen, hr, hh, ?_, ?_, ?_, ?_, h6, h7⟩
  · rw [h1]; decide
  · rw [h2]; decide
  · rw [h3]; decide
  · rw [h4]; decide

/-- C4, the code at two malformed frames: with the cursor on a length field of
500 in a blob that has the 500 bytes, `lc3bin_read_data` copies them into the
400-byte `read_buffer` (a write past the buffer, no error result); with the
cursor on a length field of 40 in a blob with 10 bytes left it copies from
past the end of the blob (no error result). -/
theorem lc3bin_read_data_malformed :
    oversized_music.length = 520 ∧ zero_buffer.length = 400 ∧
    lc3bin_read_data oversized_music 18 18 1 zero_buffer = .undefined .writePastBuffer ∧
    short_music.length = 30 ∧
    lc3bin_read_data short_music 18 18 1 zero_buffer = .undefined .readPastArray := by
  refine ⟨by decide!, by decide!, ?_, by decide!, ?_⟩
  · decide!
  · decide!

/-- C5 fails on the code: on a 17-byte blob `lc3bin_read_header` does not
return a failure value; it copies 18 bytes and so reads past the end of the blob. -/
theorem lc3bin_read_header_truncated_counterexample :
    (sample_hdr.take 17).length < sizeof_hdr ∧
    lc3bin_read_header (sample_hdr.take 17) 0 = .undefined .readPastArray ∧
    ¬ ∃ hr, lc3bin_read_header (sample_hdr.take 17) 0 = .ok hr ∧ hr.ret < 0 := by
  have h : lc3bin_read_header (sample_hdr.take 17) 0 = .undefined .readPastArray := by decide!
  refine ⟨by decide!, h, ?_⟩
  rintro ⟨hr, hok, -⟩
  rw [h] at hok
  cases hok

/-- C5 as amended: `lc3bin_read_header` has no failure result. On every blob of
at least 18 bytes it succeeds, returning 18 with the cursor 18 bytes into the
blob; and whenever it returns, on any blob and from any cursor, it returns 18,
never a failure value. -/
theorem lc3bin_read_header_no_failure_result (blob : List Byte) :
    (sizeof_hdr ≤ blob.length →
      ∃ hr, lc3bin_read_header blob 0 = .ok hr ∧ hr.ret = 18 ∧ hr.data = 18) ∧
    (∀ data hr, lc3bin_read_header blob data = .ok hr → hr.ret = 18) := by
  refine ⟨fun h => ⟨_, lc3bin_read_header_ok blob h, rfl, rfl⟩, ?_⟩
  intro data hr hok
  unfold lc3bin_read_header at hok
  cases h1 : memcpy_src blob data sizeof_hdr with
  | undefined f => simp [h1] at hok
  | blocked => simp [h1] at hok
  | ok raw =>
    simp only [h1, Outcome.ok_bind, Outcome.pure_eq, Outcome.ok.injEq] at hok
    subst hok
    rfl

/-- Witness for C5 as amended, on the sample container. -/
theorem lc3bin_read_header_no_failure_result_witness :
    sizeof_hdr ≤ sample_music.length ∧
    ∃ hr, lc3bin_read_header sample_music 0 = .ok hr ∧ hr.ret = 18 ∧ hr.data = 18 :=
  ⟨by decide!, (lc3bin_read_header_no_failure_result sample_music).1 (by decide!)⟩

/-! ### The producer -/

theorem memcpy_src_ne_blocked (arr : List Byte) (off n : Nat) :
    memcpy_src arr off n ≠ .blocked := by
  unfold memcpy_src
  split <;> simp

theorem memcpy_dst_ne_blocked (buffer src : List Byte) : memcpy_dst buffer src ≠ .blocked := by
  unfold memcpy_dst
  split <;> simp

/-- What a returning `lc3bin_read_data` has done: the length field and the
frame bytes were inside the blob, the frame fitted the buffer, the return value
is the length field and the buffer starts with the frame bytes. -/
theorem lc3bin_read_data_ok_inv (lc3_music : List Byte) (start data : Nat) (nch : Int)
    (buffer : List Byte) (r : ReadResult)
    (h : lc3bin_read_data lc3_music start data nch buffer = .ok r) :
    ∃ n : Nat, n = le16 ((lc3_music.drop data).take 2) ∧ data + 2 + n ≤ lc3_music.length ∧
      n ≤ buffer.length ∧ r.ret = (n : Int) ∧
      r.buffer = (lc3_music.drop (data + 2)).take n ++ buffer.drop n ∧
      r.buffer.length = buffer.length := by
  unfold lc3bin_read_data at h
  cases h1 : memcpy_src lc3_music data 2 with
  | undefined f => simp [h1] at h
  | blocked => simp [h1] at h
  | ok raw =>
    simp only [h1, Outcome.ok_bind] at h
    cases h2 : memcpy_src lc3_music (data + 2) (le16 raw) with
    | undefined f => simp [h2] at h
    | blocked => simp [h2] at h
    | ok src =>
      simp only [h2, Outcome.ok_bind] at h
      cases h3 : memcpy_dst buffer src with
      | undefined f => simp [h3] at h
      | blocked => simp [h3] at h
      | ok b =>
        simp only [h3, Outcome.ok_bind] at h
        unfold memcpy_src at h1 h2
        unfold memcpy_dst at h3
        split at h1 <;> simp only [Outcome.ok.injEq, reduceCtorEq] at h1
        split at h2 <;> simp only [Outcome.ok.injEq, reduceCtorEq] at h2
        split at h3 <;> simp only [Outcome.ok.injEq, reduceCtorEq] at h3
        rename_i hb1 hb2 hb3
        subst h1 h2 h3
        have hlen : ((lc3_music.drop (data + 2)).take
            (le16 ((lc3_music.drop data).take 2))).length
            = le16 ((lc3_music.drop data).take 2) := by
          rw [List.length_take, List.length_drop]; omega
        rw [hlen] at hb3
        refine ⟨le16 ((lc3_music.drop data).take 2), rfl, hb2, hb3, ?_, ?_, ?_⟩
        · split at h <;> simp only [Outcome.pure_eq, Outcome.ok.injEq] at h <;> subst h <;> rfl
        · split at h <;> simp only [Outcome.pure_eq, Outcome.ok.injEq] at h <;> subst h <;>
            simp only [hlen]
        · split at h <;> simp only [Outcome.pure_eq, Outcome.ok.injEq] at h <;> subst h <;>
            simp only [hlen, List.length_append, List.length_drop] <;> omega

/-- A returning `lc3bin_read_data` returns the length field, never a negative value. -/
theorem lc3bin_read_data_ret_nonneg (lc3_music : List Byte) (start data : Nat) (nch : Int)
    (buffer : List Byte) (r : ReadResult)
    (h : lc3bin_read_data lc3_music start data nch buffer = .ok r) : 0 ≤ r.ret := by
  obtain ⟨n, -, -, -, hn, -⟩ := lc3bin_read_data_ok_inv _ _ _ _ _ _ h
  omega

theorem lc3bin_read_data_ne_blocked (lc3_music : List Byte) (start data : Nat) (nch : Int)
    (buffer : List Byte) : lc3bin_read_data lc3_music start data nch buffer ≠ .blocked := by
  unfold lc3bin_read_data
  cases h1 : memcpy_src lc3_music data 2 with
  | undefined f => simp
  | blocked => exact absurd h1 (memcpy_src_ne_blocked _ _ _)
  | ok raw =>
    simp only [Outcome.ok_bind]
    cases h2 : memcpy_src lc3_music (data + 2) (le16 raw) with
    | undefined f => simp
    | blocked => exact absurd h2 (memcpy_src_ne_blocked _ _ _)
    | ok src =>
      simp only [Outcome.ok_bind]
      cases h3 : memcpy_dst buffer src with
      | undefined f => simp
      | blocked => exact absurd h3 (memcpy_dst_ne_blocked _ _)
      | ok b =>
        simp only [Outcome.ok_bind]
        split <;> simp

/-- An invocation of `send_data` that has a free buffer and a frame read that
returns: it submits, and leaves this state and these events. -/
theorem send_data_submit (cfg : Config) (s : State) (i : Nat) (send_ret : Int) (r : ReadResult)
    (hstop : s.stopping = false) (hpool : s.tx_pool_used < TOTAL_BUF_NEEDED cfg)
    (hread : lc3bin_read_data cfg.lc3_music s.start_data_ptr s.data_ptr 1 s.read_buffer = .ok r)
    (hsdu : cfg.sdu ≤ r.buffer.length) :
    send_data cfg s i send_ret = .ok
      ({ s with
          data_ptr := r.data
          read_buffer := r.buffer
          streams := s.streams.set i
            { seq_num := ((s.streams.getD i default).seq_num + 1) % 65536
              sent_cnt := if send_ret < 0 then (s.streams.getD i default).sent_cnt
                else ((s.streams.getD i default).sent_cnt + 1) % 4294967296 }
          tx_pool_used := if send_ret < 0 then s.tx_pool_used else s.tx_pool_used + 1 },
        (if r.looped then [Event.printk .looping] else []) ++
          [Event.stream_send i { headroom := cfg.send_reserve, data := r.buffer.take cfg.sdu }
            (s.streams.getD i default).seq_num send_ret] ++
          (if send_ret < 0 then [Event.printk (.unable_to_broadcast i send_ret)]
            else if ((s.streams.getD i default).sent_cnt + 1) % 4294967296 % 1000 = 0 then
              [Event.printk (.sent_total i
                (((s.streams.getD i default).sent_cnt + 1) % 4294967296))]
            else [])) := by
  have hret : 0 ≤ r.ret := by
    obtain ⟨n, -, -, -, hn, -⟩ := lc3bin_read_data_ok_inv _ _ _ _ _ _ hread
    omega
  have hnot : ¬ r.ret < 0 := by omega
  simp only [send_data, hstop, net_buf_alloc, hpool, hread, hnot, net_buf_add_mem, memcpy_src,
    net_buf_reserve, net_buf_unref, Nat.zero_add, if_pos hsdu, Outcome.ok_bind, Outcome.pure_eq,
    if_true, if_false, Bool.false_eq_true, List.drop_zero, List.nil_append]
  by_cases hf : send_ret < 0
  · simp only [if_pos hf, Nat.add_sub_cancel]
  · simp only [if_neg hf, List.set_set]
    split <;> simp

theorem send_data_stopping (cfg : Config) (s : State) (i : Nat) (send_ret : Int)
    (hstop : s.stopping = true) : send_data cfg s i send_ret = .ok (s, []) := by
  simp [send_data, hstop]

theorem send_data_blocked (cfg : Config) (s : State) (i : Nat) (send_ret : Int)
    (hstop : s.stopping = false) (hpool : TOTAL_BUF_NEEDED cfg ≤ s.tx_pool_used) :
    send_data cfg s i send_ret = .blocked := by
  have h : ¬ s.tx_pool_used < TOTAL_BUF_NEEDED cfg := by omega
  simp [send_data, hstop, net_buf_alloc, h]

theorem send_data_read_undefined (cfg : Config) (s : State) (i : Nat) (send_ret : Int)
    (f : Fault) (hstop : s.stopping = false) (hpool : s.tx_pool_used < TOTAL_BUF_NEEDED cfg)
    (hread : lc3bin_read_data cfg.lc3_music s.start_data_ptr s.data_ptr 1 s.read_buffer
      = .undefined f) :
    send_data cfg s i send_ret = .undefined f := by
  simp [send_data, hstop, net_buf_alloc, hpool, hread]

theorem send_data_sdu_undefined (cfg : Config) (s : State) (i : Nat) (send_ret : Int)
    (r : ReadResult) (hstop : s.stopping = false)
    (hpool : s.tx_pool_used < TOTAL_BUF_NEEDED cfg)
    (hread : lc3bin_read_data cfg.lc3_music s.start_data_ptr s.data_ptr 1 s.read_buffer = .ok r)
    (hsdu : ¬ cfg.sdu ≤ r.buffer.length) :
    send_data cfg s i send_ret = .undefined .readPastArray := by
  have hret : 0 ≤ r.ret := by
    obtain ⟨n, -, -, -, hn, -⟩ := lc3bin_read_data_ok_inv _ _ _ _ _ _ hread
    omega
  have hnot : ¬ r.ret < 0 := by omega
  simp [send_data, hstop, net_buf_alloc, hpool, hread, hnot, net_buf_add_mem, memcpy_src, hsdu,
    net_buf_reserve]

/-- The ways an invocation of `send_data` can return. -/
theorem send_data_ok_inv (cfg : Config) (s s1 : State) (i : Nat) (send_ret : Int)
    (evs : List Event) (h : send_data cfg s i send_ret = .ok (s1, evs)) :
    (s.stopping = true ∧ s1 = s ∧ evs = []) ∨
    (s.stopping = false ∧ s.tx_pool_used < TOTAL_BUF_NEEDED cfg ∧
      ∃ r, lc3bin_read_data cfg.lc3_music s.start_data_ptr s.data_ptr 1 s.read_buffer = .ok r ∧
        cfg.sdu ≤ r.buffer.length) := by
  cases hstop : s.stopping with
  | true =>
    rw [send_data_stopping cfg s i send_ret hstop, Outcome.ok.injEq, Prod.mk.injEq] at h
    exact Or.inl ⟨rfl, h.1.symm, h.2.symm⟩
  | false =>
    right
    by_cases hpool : s.tx_pool_used < TOTAL_BUF_NEEDED cfg
    · refine ⟨rfl, hpool, ?_⟩
      cases hread : lc3bin_read_data cfg.lc3_music s.start_data_ptr s.data_ptr 1 s.read_buffer with
      | blocked => exact absurd hread (lc3bin_read_data_ne_blocked _ _ _ _ _)
      | undefined f =>
        rw [send_data_read_undefined cfg s i send_ret f hstop hpool hread] at h
        cases h
      | ok r =>
        by_cases hsdu : cfg.sdu ≤ r.buffer.length
        · exact ⟨r, rfl, hsdu⟩
        · rw [send_data_sdu_undefined cfg s i send_ret r hstop hpool hread hsdu] at h
          cases h
    · rw [send_data_blocked cfg s i send_ret hstop (by omega)] at h
      cases h

theorem sample_state_init : main_init sample_cfg = .ok sample_state := by decide!

/-- C7: an invocation of `send_data` with `stopping` clear, `sdu <= 400` and
the 400-byte `read_buffer` either waits in `net_buf_alloc` (pool exhausted), or
its frame read leaves the blob or the buffer, or it hands exactly one buffer to
the transport: headroom `BT_ISO_CHAN_SEND_RESERVE`, then exactly `sdu` payload
bytes, which are the first `sdu` bytes of `read_buffer` as the frame read of
this invocation left it; when the frame just read has length `sdu` the payload
is that frame, byte for byte. -/
theorem send_data_payload (cfg : Config) (s : State) (i : Nat) (send_ret : Int)
    (hstop : s.stopping = false) (hsdu : cfg.sdu ≤ LC3_MAX_FRAME_BYTES)
    (hbuf : s.read_buffer.length = read_buffer_size) :
    (TOTAL_BUF_NEEDED cfg ≤ s.tx_pool_used ∧ send_data cfg s i send_ret = .blocked) ∨
    (∃ f, lc3bin_read_data cfg.lc3_music s.start_data_ptr s.data_ptr 1 s.read_buffer
        = .undefined f ∧ send_data cfg s i send_ret = .undefined f) ∨
    (∃ r s1 before after seq_num,
      lc3bin_read_data cfg.lc3_music s.start_data_ptr s.data_ptr 1 s.read_buffer = .ok r ∧
      send_data cfg s i send_ret = .ok (s1, before ++
        [Event.stream_send i { headroom := cfg.send_reserve, data := r.buffer.take cfg.sdu }
          seq_num send_ret] ++ after) ∧
      (∀ e ∈ before ++ after, ∃ line, e = Event.printk line) ∧
      s1.read_buffer = r.buffer ∧
      (r.buffer.take cfg.sdu).length = cfg.sdu ∧
      (r.ret = (cfg.sdu : Int) →
        r.buffer.take cfg.sdu = (cfg.lc3_music.drop (s.data_ptr + 2)).take cfg.sdu)) := by
  by_cases hpool : s.tx_pool_used < TOTAL_BUF_NEEDED cfg
  · cases hread : lc3bin_read_data cfg.lc3_music s.start_data_ptr s.data_ptr 1 s.read_buffer with
    | blocked => exact absurd hread (lc3bin_read_data_ne_blocked _ _ _ _ _)
    | undefined f =>
      exact Or.inr (Or.inl ⟨f, rfl, send_data_read_undefined cfg s i send_ret f hstop hpool hread⟩)
    | ok r =>
      obtain ⟨n, -, hn1, -, hret, hrb, hlen⟩ := lc3bin_read_data_ok_inv _ _ _ _ _ _ hread
      have hsdu2 : cfg.sdu ≤ r.buffer.length := by
        rw [hlen, hbuf]
        simpa [read_buffer_size, CHANNEL_COUNT] using hsdu
      refine Or.inr (Or.inr ⟨r, _, _, _, _, rfl,
        send_data_submit cfg s i send_ret r hstop hpool hread hsdu2, ?_, rfl, ?_, ?_⟩)
      · intro e he
        rw [List.mem_append] at he
        rcases he with he | he
        · split at he
          · rw [List.mem_singleton] at he; exact ⟨_, he⟩
          · cases he
        · split at he
          · rw [List.mem_singleton] at he; exact ⟨_, he⟩
          · split at he
            · rw [List.mem_singleton] at he; exact ⟨_, he⟩
            · cases he
      · rw [List.length_take]; omega
      · intro hfull
        have hn : cfg.sdu = n := by omega
        rw [hn]
        have hl : ((cfg.lc3_music.drop (s.data_ptr + 2)).take n).length = n := by
          rw [List.length_take, List.length_drop]; omega
        rw [hrb]
        exact List.take_left' hl
  · exact Or.inl ⟨by omega, send_data_blocked cfg s i send_ret hstop (by omega)⟩

/-- Witness for C7: the first invocation on the sample configuration submits
the 40-byte first frame of the sample container. -/
theorem send_data_payload_witness :
    sample_state.stopping = false ∧ sample_cfg.sdu ≤ LC3_MAX_FRAME_BYTES ∧
    sample_state.read_buffer.length = read_buffer_size ∧
    ∃ s1 before after seq_num, send_data sample_cfg sample_state 0 0 = .ok (s1, before ++
        [Event.stream_send 0 { headroom := 8, data := List.replicate 40 0x11 } seq_num 0]
        ++ after) := by
  have h1 : sample_state.stopping = false := rfl
  have h2 : sample_cfg.sdu ≤ LC3_MAX_FRAME_BYTES := by decide
  have h3 : sample_state.read_buffer.length = read_buffer_size := zero_buffer_length
  refine ⟨h1, h2, h3, ?_⟩
  have hread : lc3bin_read_data sample_cfg.lc3_music sample_state.start_data_ptr
      sample_state.data_ptr 1 sample_state.read_buffer =
      .ok { data := 60, buffer := List.replicate 40 0x11 ++ List.replicate 360 0,
            ret := 40, looped := false } := by decide!
  rcases send_data_payload sample_cfg sample_state 0 0 h1 h2 h3 with h | h | h
  · exact absurd h.1 (by decide)
  · obtain ⟨f, hf, -⟩ := h
    rw [hread] at hf
    cases hf
  · obtain ⟨r, s1, before, after, seq_num, hr, hsend, -⟩ := h
    rw [hread, Outcome.ok.injEq] at hr
    subst hr
    exact ⟨s1, before, after, seq_num, hsend⟩

/-- C8: an invocation of `send_data` that gets to `bt_bap_stream_send` and is
told an error returns with the buffer it took given back (`net_buf_unref`): as
many buffers of `tx_pool` are in use after it as before it, no stream's
`sent_cnt` has changed, and no "Sent ... total ISO packets" line is printed. -/
theorem send_data_submission_failure (cfg : Config) (s : State) (i : Nat) (send_ret : Int)
    (r : ReadResult) (hstop : s.stopping = false)
    (hpool : s.tx_pool_used < TOTAL_BUF_NEEDED cfg)
    (hread : lc3bin_read_data cfg.lc3_music s.start_data_ptr s.data_ptr 1 s.read_buffer = .ok r)
    (hsdu : cfg.sdu ≤ r.buffer.length) (hfail : send_ret < 0) :
    ∃ s1 evs, send_data cfg s i send_ret = .ok (s1, evs) ∧
      (∃ buf seq_num, Event.stream_send i buf seq_num send_ret ∈ evs) ∧
      s1.tx_pool_used = net_buf_unref (s.tx_pool_used + 1) ∧
      s1.tx_pool_used = s.tx_pool_used ∧
      (∀ j, (s1.streams.getD j default).sent_cnt = (s.streams.getD j default).sent_cnt) ∧
      (∀ j n, Event.printk (.sent_total j n) ∉ evs) := by
  refine ⟨_, _, send_data_submit cfg s i send_ret r hstop hpool hread hsdu,
    ⟨{ headroom := cfg.send_reserve, data := r.buffer.take cfg.sdu },
      (s.streams.getD i default).seq_num, ?_⟩, ?_, ?_, ?_, ?_⟩
  · simp
  · simp [hfail, net_buf_unref]
  · simp [hfail]
  · intro j
    simp only [hfail, if_true, List.getD_eq_getElem?_getD, List.getElem?_set]
    by_cases hij : i = j
    · subst hij
      by_cases hi : i < s.streams.length
      · simp [hi]
      · have hnone : s.streams[i]? = none := List.getElem?_eq_none (by omega)
        simp [hi, hnone]
    · simp [hij]
  · intro j n
    simp [hfail]

/-- Witness for C8: the first invocation on the sample configuration, with the
transport returning -5. -/
theorem send_data_submission_failure_witness :
    ∃ s1 evs, send_data sample_cfg sample_state 0 (-5) = .ok (s1, evs) ∧
      s1.tx_pool_used = sample_state.tx_pool_used ∧
      (∀ j, (s1.streams.getD j default).sent_cnt
        = (sample_state.streams.getD j default).sent_cnt) := by
  have hread : lc3bin_read_data sample_cfg.lc3_music sample_state.start_data_ptr
      sample_state.data_ptr 1 sample_state.read_buffer =
      .ok { data := 60, buffer := List.replicate 40 0x11 ++ List.replicate 360 0,
            ret := 40, looped := false } := by decide!
  obtain ⟨s1, evs, h, -, -, hu, hc, -⟩ :=
    send_data_submission_failure sample_cfg sample_state 0 (-5) _ rfl (by decide) hread
      (by decide!) (by decide)
  exact ⟨s1, evs, h, hu, hc⟩

/-! ### Sequence numbers -/

theorem submissions_append (i : Nat) (xs ys : List Event) :
    submissions i (xs ++ ys) = submissions i xs ++ submissions i ys := by
  induction xs with
  | nil => rfl
  | cons e xs ih =>
    cases e with
    | printk line => simpa [submissions] using ih
    | stream_send j buf q ret =>
      by_cases hj : j = i <;> simp [submissions, hj, ih]

theorem getD_set_seq_num (streams : List broadcast_source_stream) (i j : Nat)
    (x : broadcast_source_stream) (hj : j < streams.length) :
    ((streams.set i x).getD j default).seq_num =
      if i = j then x.seq_num else (streams.getD j default).seq_num := by
  simp only [List.getD_eq_getElem?_getD, List.getElem?_set]
  by_cases hij : i = j
  · subst hij; simp [hj]
  · simp [hij]

/-- What one step does to the submissions and to `seq_num` of stream `i`:
nothing, or one submission with the current `seq_num`, which is then
incremented modulo 2^16. -/
theorem step_submissions (cfg : Config) (s s1 : State) (e : Step) (evs : List Event) (i : Nat)
    (hs : step cfg s e = .ok (s1, evs)) (he : e ≠ Step.started i) (hi : i < s.streams.length) :
    s1.streams.length = s.streams.length ∧
    ((submissions i evs = [] ∧
        (s1.streams.getD i default).seq_num = (s.streams.getD i default).seq_num) ∨
      (∃ ret, submissions i evs = [((s.streams.getD i default).seq_num, ret)] ∧
        (s1.streams.getD i default).seq_num
          = ((s.streams.getD i default).seq_num + 1) % 65536)) := by
  cases e with
  | sent j send_ret =>
    simp only [step, stream_sent_cb] at hs
    rcases send_data_ok_inv cfg s s1 j send_ret evs hs with ⟨-, h1, h2⟩ | ⟨hstop, hpool, r, hr, hsdu⟩
    · subst h1 h2
      exact ⟨rfl, Or.inl ⟨rfl, rfl⟩⟩
    · rw [send_data_submit cfg s j send_ret r hstop hpool hr hsdu, Outcome.ok.injEq,
        Prod.mk.injEq] at hs
      obtain ⟨h1, h2⟩ := hs
      subst h1 h2
      refine ⟨by simp, ?_⟩
      have hloop : submissions i (if r.looped then [Event.printk .looping] else []) = [] := by
        split <;> rfl
      have hdiag : submissions i
          (if send_ret < 0 then [Event.printk (.unable_to_broadcast j send_ret)]
            else if ((s.streams.getD j default).sent_cnt + 1) % 4294967296 % 1000 = 0 then
              [Event.printk (.sent_total j
                (((s.streams.getD j default).sent_cnt + 1) % 4294967296))]
            else []) = [] := by
        split
        · rfl
        · split <;> rfl
      simp only [submissions_append, hloop, hdiag, List.nil_append, List.append_nil]
      by_cases hji : j = i
      · subst hji
        right
        exact ⟨send_ret, by simp [submissions], by rw [getD_set_seq_num _ _ _ _ hi]; simp⟩
      · left
        exact ⟨by simp [submissions, hji], by rw [getD_set_seq_num _ _ _ _ hi]; simp [hji]⟩
  | started j =>
    have hji : j ≠ i := fun h => he (by rw [h])
    simp only [step, stream_started_cb, Outcome.pure_eq, Outcome.ok.injEq, Prod.mk.injEq] at hs
    obtain ⟨h1, h2⟩ := hs
    subst h1 h2
    exact ⟨by simp, Or.inl ⟨rfl, by rw [getD_set_seq_num _ _ _ _ hi]; simp [hji]⟩⟩
  | stopped j reason =>
    simp only [step, stream_stopped_cb, Outcome.pure_eq, Outcome.ok.injEq, Prod.mk.injEq] at hs
    obtain ⟨h1, h2⟩ := hs
    subst h1 h2
    exact ⟨rfl, Or.inl ⟨rfl, rfl⟩⟩
  | release =>
    simp only [step, Outcome.pure_eq, Outcome.ok.injEq, Prod.mk.injEq] at hs
    obtain ⟨h1, h2⟩ := hs
    subst h1 h2
    exact ⟨rfl, Or.inl ⟨rfl, rfl⟩⟩

theorem run_cons_inv (cfg : Config) (s s2 : State) (e : Step) (es : List Step)
    (evs : List Event) (h : run cfg s (e :: es) = .ok (s2, evs)) :
    ∃ s1 ev1 ev2, step cfg s e = .ok (s1, ev1) ∧ run cfg s1 es = .ok (s2, ev2) ∧
      evs = ev1 ++ ev2 := by
  simp only [run] at h
  cases h1 : step cfg s e with
  | undefined f => simp [h1] at h
  | blocked => simp [h1] at h
  | ok x =>
    obtain ⟨s1, ev1⟩ := x
    simp only [h1, Outcome.ok_bind] at h
    cases h2 : run cfg s1 es with
    | undefined f => simp [h2] at h
    | blocked => simp [h2] at h
    | ok y =>
      obtain ⟨s3, ev2⟩ := y
      simp only [h2, Outcome.ok_bind, Outcome.pure_eq, Outcome.ok.injEq, Prod.mk.injEq] at h
      exact ⟨s1, ev1, ev2, rfl, by rw [h2, h.1], h.2.symm⟩

/-- Along a run without `stream_started_cb` for stream `i`, submission number
`k` (from 0) for that stream carries `seq_num` of the start plus `k`, modulo 2^16. -/
theorem run_submissions (cfg : Config) (i : Nat) (trace : List Step) :
    ∀ (s s1 : State) (evs : List Event), run cfg s trace = .ok (s1, evs) →
      (∀ e ∈ trace, e ≠ Step.started i) → i < s.streams.length →
      (s.streams.getD i default).seq_num < 65536 →
      ∀ k p, (submissions i evs)[k]? = some p →
        p.1 = ((s.streams.getD i default).seq_num + k) % 65536 := by
  induction trace with
  | nil =>
    intro s s1 evs hrun _ _ _ k p hk
    simp only [run, Outcome.pure_eq, Outcome.ok.injEq, Prod.mk.injEq] at hrun
    rw [← hrun.2] at hk
    simp [submissions] at hk
  | cons e es ih =>
    intro s s2 evs hrun hno hi hq k p hk
    obtain ⟨s1, ev1, ev2, hstep, hrest, hevs⟩ := run_cons_inv cfg s s2 e es evs hrun
    obtain ⟨hlen, hcase⟩ :=
      step_submissions cfg s s1 e ev1 i hstep (hno e (List.mem_cons_self _ _)) hi
    have hno2 : ∀ e2 ∈ es, e2 ≠ Step.started i := fun e2 h2 => hno e2 (List.mem_cons_of_mem _ h2)
    have hi1 : i < s1.streams.length := by omega
    rw [hevs, submissions_append] at hk
    rcases hcase with ⟨hnil, hseq⟩ | ⟨ret, hone, hseq⟩
    · rw [hnil, List.nil_append] at hk
      have := ih s1 s2 ev2 hrest hno2 hi1 (by omega) k p hk
      rw [hseq] at this
      exact this
    · rw [hone] at hk
      cases k with
      | zero =>
        simp only [List.singleton_append, List.getElem?_cons_zero, Option.some.injEq] at hk
        subst hk
        simp only [Nat.add_zero]
        omega
      | succ k =>
        simp only [List.singleton_append, List.getElem?_cons_succ] at hk
        have := ih s1 s2 ev2 hrest hno2 hi1 (by omega) k p hk
        rw [hseq] at this
        omega

/-- C6 fails on the code: after `stream_started_cb`, a submission the transport
rejects followed by one it accepts. `seq_num` was incremented for the rejected
one too, so the first successful submission carries 1, not 0. -/
theorem seq_num_first_success_counterexample :
    ∃ s1 evs,
      run sample_cfg (stream_started_cb sample_cfg sample_state 0)
        [Step.sent 0 (-5), Step.sent 0 0] = .ok (s1, evs) ∧
      submissions 0 evs = [(0, -5), (1, 0)] ∧
      successful_seq_nums 0 evs = [1] ∧
      (successful_seq_nums 0 evs)[0]? ≠ some 0 := by
  have hrun : run sample_cfg (stream_started_cb sample_cfg sample_state 0)
      [Step.sent 0 (-5), Step.sent 0 0] = .ok
        ({ data_ptr := 18
           start_data_ptr := 18
           read_buffer := List.replicate 45 0x22 ++ List.replicate 355 0
           streams := [{ seq_num := 2, sent_cnt := 1 }]
           stopping := false
           tx_pool_used := 1
           sem_started := 1
           sem_stopped := 0 },
         [Event.stream_send 0 { headroom := 8, data := List.replicate 40 0x11 } 0 (-5),
          Event.printk (.unable_to_broadcast 0 (-5)),
          Event.printk .looping,
          Event.stream_send 0 { headroom := 8, data := List.replicate 40 0x22 } 1 0]) := by
    decide!
  exact ⟨_, _, hrun, by decide, by decide, by decide⟩

/-- C6 as amended: after `stream_started_cb` for stream `i`, along any run of
callbacks without a further `stream_started_cb` for it, call number `k + 1` of
`bt_bap_stream_send` for the stream, accepted or rejected, is passed sequence
number `k mod 2^16`; so when no submission was rejected, successful submission
number `k + 1` carries `k mod 2^16`. -/
theorem seq_num_counts_submissions (cfg : Config) (s s1 : State) (i : Nat)
    (trace : List Step) (evs : List Event) (hi : i < s.streams.length)
    (hno : ∀ e ∈ trace, e ≠ Step.started i)
    (hrun : run cfg (stream_started_cb cfg s i) trace = .ok (s1, evs)) :
    (∀ k p, (submissions i evs)[k]? = some p → p.1 = k % 65536) ∧
    ((∀ p ∈ submissions i evs, 0 ≤ p.2) →
      ∀ k q, (successful_seq_nums i evs)[k]? = some q → q = k % 65536) := by
  have hlen : i < (stream_started_cb cfg s i).streams.length := by
    simpa [stream_started_cb] using hi
  have hzero : ((stream_started_cb cfg s i).streams.getD i default).seq_num = 0 := by
    simp only [stream_started_cb]
    rw [getD_set_seq_num _ _ _ _ hi]
    simp
  have hall : ∀ k p, (submissions i evs)[k]? = some p → p.1 = k % 65536 := by
    intro k p hk
    have := run_submissions cfg i trace _ s1 evs hrun hno hlen (by omega) k p hk
    rw [hzero, Nat.zero_add] at this
    exact this
  refine ⟨hall, ?_⟩
  intro hok k q hk
  have hfilter : (submissions i evs).filter (fun p => decide (0 ≤ p.2)) = submissions i evs :=
    List.filter_eq_self.mpr (fun p hp => by simpa using hok p hp)
  rw [successful_seq_nums, hfilter, List.getElem?_map] at hk
  cases hp : (submissions i evs)[k]? with
  | none => simp [hp] at hk
  | some p =>
    simp only [hp, Option.map_some', Option.some.injEq] at hk
    rw [← hk]
    exact hall k p hp

/-- Witness for C6 as amended: three submissions on the sample configuration,
the second one rejected, carry 0, 1, 2. -/
theorem seq_num_counts_submissions_witness :
    ∃ s1 evs,
      run sample_cfg (stream_started_cb sample_cfg sample_state 0)
        [Step.sent 0 0, Step.sent 0 (-5), Step.release, Step.sent 0 0] = .ok (s1, evs) ∧
      submissions 0 evs = [(0, 0), (1, -5), (2, 0)] ∧
      ∀ k p, (submissions 0 evs)[k]? = some p → p.1 = k % 65536 := by
  have hrun : run sample_cfg (stream_started_cb sample_cfg sample_state 0)
      [Step.sent 0 0, Step.sent 0 (-5), Step.release, Step.sent 0 0] = .ok
        ({ data_ptr := 60
           start_data_ptr := 18
           read_buffer := List.replicate 40 0x11 ++ List.replicate 5 0x22 ++ List.replicate 355 0
           streams := [{ seq_num := 3, sent_cnt := 2 }]
           stopping := false
           tx_pool_used := 1
           sem_started := 1
           sem_stopped := 0 },
         [Event.stream_send 0 { headroom := 8, data := List.replicate 40 0x11 } 0 0,
          Event.printk .looping,
          Event.stream_send 0 { headroom := 8, data := List.replicate 40 0x22 } 1 (-5),
          Event.printk (.unable_to_broadcast 0 (-5)),
          Event.stream_send 0 { headroom := 8, data := List.replicate 40 0x11 } 2 0]) := by
    decide!
  exact ⟨_, _, hrun, by decide,
    (seq_num_counts_submissions sample_cfg sample_state _ 0 _ _ (by decide) (by decide) hrun).1⟩

/-! ### The pool -/

/-- What a step keeps: the flag `stopping`, `start_data_ptr`, and the bound on
the buffers in use. -/
theorem step_keeps (cfg : Config) (s s1 : State) (e : Step) (evs : List Event)
    (hs : step cfg s e = .ok (s1, evs)) :
    s1.stopping = s.stopping ∧ s1.start_data_ptr = s.start_data_ptr ∧
    (s.tx_pool_used ≤ TOTAL_BUF_NEEDED cfg → s1.tx_pool_used ≤ TOTAL_BUF_NEEDED cfg) := by
  cases e with
  | sent j send_ret =>
    simp only [step, stream_sent_cb] at hs
    rcases send_data_ok_inv cfg s s1 j send_ret evs hs with ⟨-, h1, -⟩ | ⟨hstop, hpool, r, hr, hsdu⟩
    · subst h1
      exact ⟨rfl, rfl, id⟩
    · rw [send_data_submit cfg s j send_ret r hstop hpool hr hsdu, Outcome.ok.injEq,
        Prod.mk.injEq] at hs
      obtain ⟨h1, -⟩ := hs
      subst h1
      refine ⟨rfl, rfl, fun _ => ?_⟩
      simp only
      split <;> omega
  | started j =>
    simp only [step, stream_started_cb, Outcome.pure_eq, Outcome.ok.injEq, Prod.mk.injEq] at hs
    obtain ⟨h1, -⟩ := hs
    subst h1
    exact ⟨rfl, rfl, id⟩
  | stopped j reason =>
    simp only [step, stream_stopped_cb, Outcome.pure_eq, Outcome.ok.injEq, Prod.mk.injEq] at hs
    obtain ⟨h1, -⟩ := hs
    subst h1
    exact ⟨rfl, rfl, id⟩
  | release =>
    simp only [step, Outcome.pure_eq, Outcome.ok.injEq, Prod.mk.injEq] at hs
    obtain ⟨h1, -⟩ := hs
    subst h1
    refine ⟨rfl, rfl, fun h => ?_⟩
    simp only [net_buf_unref]
    omega

theorem main_init_inv (cfg : Config) (s : State) (h : main_init cfg = .ok s) :
    s.stopping = false ∧ s.tx_pool_used = 0 ∧ s.start_data_ptr = sizeof_hdr ∧
    s.data_ptr = sizeof_hdr ∧ s.read_buffer.length = read_buffer_size := by
  unfold main_init at h
  cases hh : lc3bin_read_header cfg.lc3_music 0 with
  | undefined f => simp [hh] at h
  | blocked => simp [hh] at h
  | ok hr =>
    simp only [hh, Outcome.ok_bind, Outcome.pure_eq, Outcome.ok.injEq] at h
    have hd : hr.data = sizeof_hdr := by
      unfold lc3bin_read_header at hh
      cases h1 : memcpy_src cfg.lc3_music 0 sizeof_hdr with
      | undefined f => simp [h1] at hh
      | blocked => simp [h1] at hh
      | ok raw =>
        simp only [h1, Outcome.ok_bind, Outcome.pure_eq, Outcome.ok.injEq] at hh
        subst hh
        simp
    subst h
    exact ⟨rfl, rfl, hd, hd, by simp⟩

theorem reachable_stopping (cfg : Config) (s : State) (h : Reachable cfg s) :
    s.stopping = false := by
  induction h with
  | init s h => exact (main_init_inv cfg s h).1
  | step s s1 e evs _ hs ih => rw [(step_keeps cfg s s1 e evs hs).1, ih]

theorem reachable_pool (cfg : Config) (s : State) (h : Reachable cfg s) :
    s.tx_pool_used ≤ TOTAL_BUF_NEEDED cfg := by
  induction h with
  | init s h => rw [(main_init_inv cfg s h).2.1]; exact Nat.zero_le _
  | step s s1 e evs _ hs ih => exact (step_keeps cfg s s1 e evs hs).2.2 ih

/-- With a valid container and the decoder state in step with it, an invocation
of `send_data` that has a free buffer submits, takes one buffer when the
transport accepts, and leaves the decoder state in step. -/
theorem send_data_in_step (cfg : Config) (hdr : List Byte) (frames : List (List Byte))
    (s : State) (i : Nat) (send_ret : Int) (hc : cfg.lc3_music = container hdr frames)
    (hv : ValidContainer hdr frames) (hsdu : cfg.sdu ≤ LC3_MAX_FRAME_BYTES)
    (hin : InStep frames s) (hstop : s.stopping = false)
    (hpool : s.tx_pool_used < TOTAL_BUF_NEEDED cfg) :
    ∃ s1 evs, send_data cfg s i send_ret = .ok (s1, evs) ∧ InStep frames s1 ∧
      s1.stopping = false ∧
      s1.tx_pool_used = if send_ret < 0 then s.tx_pool_used else s.tx_pool_used + 1 := by
  obtain ⟨j, hj, hpos⟩ := hin.cursor
  have hread := lc3bin_read_data_frame hdr frames hv j hj 1 s.read_buffer hin.buffer
  rw [← hc, ← hin.start, ← hpos] at hread
  have hsz := hv.sizes _ (List.getElem_mem hj)
  have hN : 0 < frames.length := by omega
  have hlen : (frames[j] ++ s.read_buffer.drop frames[j].length).length = read_buffer_size := by
    simp only [List.length_append, List.length_drop, hin.buffer]
    simp only [LC3_MAX_FRAME_BYTES, read_buffer_size, CHANNEL_COUNT] at *
    omega
  have hsdu2 : cfg.sdu ≤ (frames[j] ++ s.read_buffer.drop frames[j].length).length := by
    rw [hlen]
    simpa [read_buffer_size, CHANNEL_COUNT] using hsdu
  refine ⟨_, _, send_data_submit cfg s i send_ret _ hstop hpool hread hsdu2, ?_, hstop, rfl⟩
  exact ⟨hin.start, ⟨(j + 1) % frames.length, Nat.mod_lt _ hN, rfl⟩, hlen⟩

/-- The three priming calls for a single stream, each accepted by the
transport, take three buffers. -/
theorem priming_single_stream (cfg : Config) (hdr : List Byte) (frames : List (List Byte))
    (s : State) (send_ret : Nat → Nat → Int) (hc : cfg.lc3_music = container hdr frames)
    (hv : ValidContainer hdr frames) (hsdu : cfg.sdu ≤ LC3_MAX_FRAME_BYTES)
    (hone : cfg.stream_count = 1) (hin : InStep frames s) (hstop : s.stopping = false)
    (hzero : s.tx_pool_used = 0) (hacc : ∀ j, 0 ≤ send_ret 0 j) :
    ∃ s1 evs, run cfg s (priming_steps cfg send_ret) = .ok (s1, evs) ∧
      s1.tx_pool_used = 3 ∧ s1.stopping = false := by
  have hcap : TOTAL_BUF_NEEDED cfg = 3 := by simp [TOTAL_BUF_NEEDED, hone, BROADCAST_ENQUEUE_COUNT]
  have hsteps : priming_steps cfg send_ret =
      [Step.sent 0 (send_ret 0 0), Step.sent 0 (send_ret 0 1), Step.sent 0 (send_ret 0 2)] := by
    simp [priming_steps, hone, BROADCAST_ENQUEUE_COUNT, List.range_succ]
  have hn : ∀ j, ¬ send_ret 0 j < 0 := fun j => by have := hacc j; omega
  obtain ⟨sa, eva, ha, hina, hstopa, hua⟩ :=
    send_data_in_step cfg hdr frames s 0 (send_ret 0 0) hc hv hsdu hin hstop (by omega)
  rw [if_neg (hn 0)] at hua
  obtain ⟨sb, evb, hb, hinb, hstopb, hub⟩ :=
    send_data_in_step cfg hdr frames sa 0 (send_ret 0 1) hc hv hsdu hina hstopa (by omega)
  rw [if_neg (hn 1)] at hub
  obtain ⟨sc, evc, hcc, -, hstopc, huc⟩ :=
    send_data_in_step cfg hdr frames sb 0 (send_ret 0 2) hc hv hsdu hinb hstopb (by omega)
  rw [if_neg (hn 2)] at huc
  refine ⟨sc, eva ++ (evb ++ (evc ++ [])), ?_, by omega, hstopc⟩
  simp only [hsteps, run, step, stream_sent_cb, ha, hb, hcc, Outcome.ok_bind, Outcome.pure_eq]

theorem reachable_in_step (cfg : Config) (hdr : List Byte) (frames : List (List Byte))
    (s : State) (hc : cfg.lc3_music = container hdr frames) (hv : ValidContainer hdr frames)
    (hsdu : cfg.sdu ≤ LC3_MAX_FRAME_BYTES) (h : Reachable cfg s) : InStep frames s := by
  have hN : 0 < frames.length := List.length_pos.mpr hv.nonempty
  induction h with
  | init s h =>
    obtain ⟨-, -, h1, h2, h3⟩ := main_init_inv cfg s h
    exact ⟨h1, ⟨0, hN, by rw [h2, frame_pos_zero]⟩, h3⟩
  | step s s1 e evs hr hs ih =>
    cases e with
    | sent j send_ret =>
      simp only [step, stream_sent_cb] at hs
      rcases send_data_ok_inv cfg s s1 j send_ret evs hs with ⟨-, h1, -⟩ | ⟨hstop, hpool, -⟩
      · subst h1; exact ih
      · obtain ⟨s2, ev2, h2, hin2, -, -⟩ :=
          send_data_in_step cfg hdr frames s j send_ret hc hv hsdu ih hstop hpool
        rw [h2, Outcome.ok.injEq, Prod.mk.injEq] at hs
        rw [← hs.1]
        exact hin2
    | started j =>
      simp only [step, stream_started_cb, Outcome.pure_eq, Outcome.ok.injEq, Prod.mk.injEq] at hs
      obtain ⟨h1, -⟩ := hs
      subst h1
      exact ⟨ih.start, ih.cursor, ih.buffer⟩
    | stopped j reason =>
      simp only [step, stream_stopped_cb, Outcome.pure_eq, Outcome.ok.injEq, Prod.mk.injEq] at hs
      obtain ⟨h1, -⟩ := hs
      subst h1
      exact ⟨ih.start, ih.cursor, ih.buffer⟩
    | release =>
      simp only [step, Outcome.pure_eq, Outcome.ok.injEq, Prod.mk.injEq] at hs
      obtain ⟨h1, -⟩ := hs
      subst h1
      exact ⟨ih.start, ih.cursor, ih.buffer⟩

/-- An invocation of `send_data` that finds a free buffer does not wait. -/
theorem send_data_ne_blocked (cfg : Config) (s : State) (i : Nat) (send_ret : Int)
    (hpool : s.tx_pool_used < TOTAL_BUF_NEEDED cfg) : send_data cfg s i send_ret ≠ .blocked := by
  intro hb
  cases hstop : s.stopping with
  | true =>
    rw [send_data_stopping cfg s i send_ret hstop] at hb
    cases hb
  | false =>
    cases hread : lc3bin_read_data cfg.lc3_music s.start_data_ptr s.data_ptr 1 s.read_buffer with
    | blocked => exact absurd hread (lc3bin_read_data_ne_blocked _ _ _ _ _)
    | undefined f =>
      rw [send_data_read_undefined cfg s i send_ret f hstop hpool hread] at hb
      cases hb
    | ok r =>
      by_cases hsdu : cfg.sdu ≤ r.buffer.length
      · rw [send_data_submit cfg s i send_ret r hstop hpool hread hsdu] at hb
        cases hb
      · rw [send_data_sdu_undefined cfg s i send_ret r hstop hpool hread hsdu] at hb
        cases hb

/-- C9: in every state reachable from the one `main` sets up by any
interleaving of `stream_sent_cb` calls (priming calls included, each with the
transport accepting or rejecting), the other stream callbacks, and the
transport giving buffers back, at most `TOTAL_BUF_NEEDED` = 3 x stream count
buffers of `tx_pool` are in use; with that many in use an invocation of
`send_data` waits in `net_buf_alloc`, and after one buffer is given back it
does not; and with a valid container, one stream (capacity 3) and no buffer in
use, the three priming calls, accepted by the transport, return with all 3
buffers in use, so that a further invocation waits. -/
theorem tx_pool_bound (cfg : Config) (s : State) (h : Reachable cfg s) :
    s.tx_pool_used ≤ TOTAL_BUF_NEEDED cfg ∧
    (s.tx_pool_used = TOTAL_BUF_NEEDED cfg →
      ∀ i send_ret, send_data cfg s i send_ret = .blocked) ∧
    (0 < TOTAL_BUF_NEEDED cfg → ∀ i send_ret,
      send_data cfg { s with tx_pool_used := net_buf_unref s.tx_pool_used } i send_ret
        ≠ .blocked) ∧
    (∀ hdr frames send_ret, cfg.lc3_music = container hdr frames → ValidContainer hdr frames →
      cfg.sdu ≤ LC3_MAX_FRAME_BYTES → cfg.stream_count = 1 → s.tx_pool_used = 0 →
      (∀ j, 0 ≤ send_ret 0 j) →
      TOTAL_BUF_NEEDED cfg = 3 ∧
      ∃ s1 evs, run cfg s (priming_steps cfg send_ret) = .ok (s1, evs) ∧
        s1.tx_pool_used = 3 ∧ ∀ i r, send_data cfg s1 i r = .blocked) := by
  have hstop := reachable_stopping cfg s h
  have hle := reachable_pool cfg s h
  refine ⟨hle, ?_, ?_, ?_⟩
  · intro hfull i send_ret
    exact send_data_blocked cfg s i send_ret hstop (by omega)
  · intro hcap i send_ret
    exact send_data_ne_blocked cfg _ i send_ret (by simp only [net_buf_unref]; omega)
  · intro hdr frames send_ret hc hv hsdu hone hzero hacc
    have hcap : TOTAL_BUF_NEEDED cfg = 3 := by
      simp [TOTAL_BUF_NEEDED, hone, BROADCAST_ENQUEUE_COUNT]
    obtain ⟨s1, evs, hrun, hused, hstop1⟩ :=
      priming_single_stream cfg hdr frames s send_ret hc hv hsdu hone
        (reachable_in_step cfg hdr frames s hc hv hsdu h) hstop hzero hacc
    exact ⟨hcap, s1, evs, hrun, hused,
      fun i r => send_data_blocked cfg s1 i r hstop1 (by omega)⟩

/-- Witness for C9: the state `main` sets up for the sample configuration
(capacity 3, one stream); the three priming calls take all three buffers. -/
theorem tx_pool_bound_witness :
    Reachable sample_cfg sample_state ∧
    sample_state.tx_pool_used ≤ TOTAL_BUF_NEEDED sample_cfg ∧
    TOTAL_BUF_NEEDED sample_cfg = 3 ∧
    ∃ s1 evs, run sample_cfg sample_state (priming_steps sample_cfg fun _ _ => 0)
        = .ok (s1, evs) ∧
      s1.tx_pool_used = 3 ∧ ∀ i r, send_data sample_cfg s1 i r = .blocked := by
  have hreach : Reachable sample_cfg sample_state := Reachable.init _ sample_state_init
  obtain ⟨h1, -, -, h4⟩ := tx_pool_bound sample_cfg sample_state hreach
  obtain ⟨hcap, hprime⟩ := h4 sample_hdr sample_frames (fun _ _ => 0) rfl sample_valid
    (by decide) rfl rfl (fun _ => Int.le_refl 0)
  exact ⟨hreach, h1, hcap, hprime⟩

/-! ### Broadcast id -/

theorem main_broadcast_id_fallback (uninit : Nat) (ret : Int) (hwid0 hwid1 hwid2 : Byte)
    (h : ret % 4294967296 ≠ 3) :
    main_broadcast_id uninit ret hwid0 hwid1 hwid2 = FALLBACK_BROADCAST_ID := by
  simp [main_broadcast_id, h]

theorem main_broadcast_id_low24 (uninit : Nat) (hwid0 hwid1 hwid2 : Byte) :
    main_broadcast_id uninit 3 hwid0 hwid1 hwid2 % 16777216
      = hwid0.val + 256 * hwid1.val + 65536 * hwid2.val := by
  have h0 := hwid0.isLt
  have h1 := hwid1.isLt
  have h2 := hwid2.isLt
  simp only [main_broadcast_id]
  rw [if_pos (by decide)]
  omega

/-- C10, the code with a used stack slot: `broadcast_id` is declared
without an initialiser and `memcpy` writes three of its four bytes, so with
the hardware id bytes 1, 2, 3 and a stack slot that held 0xFF000000 the value
is 0xFF030201 and not 0x030201; with a slot that held 0 it is 0x030201, so the
value is not a function of the hardware id alone. -/
theorem main_broadcast_id_upper_byte :
    main_broadcast_id 0xFF000000 3 1 2 3 = 0xFF030201 ∧
    main_broadcast_id 0xFF000000 3 1 2 3 ≠ 1 + 256 * 2 + 65536 * 3 ∧
    main_broadcast_id 0 3 1 2 3 = 1 + 256 * 2 + 65536 * 3 ∧
    main_broadcast_id 0xFF000000 3 1 2 3 ≠ main_broadcast_id 0 3 1 2 3 := by
  decide

end FixedSource
